import Mathlib

/-!
# Verification of the ATS resume score checker

A shallow embedding of `src/ATSscorechecker.py`, a single-script Streamlit
application that extracts text from uploaded PDF/DOCX resumes, computes a
semantic similarity score between a resume and a job description, and maps
the score to a qualitative feedback tier.

Modelling choices:

* Python strings are modelled as `List Char` (a Python `str` is a sequence of
  code points; slicing `s[:n]` is `List.take n`, `s.strip()` is `pyStrip`).
* The external embedding model (`sentence_transformers`, `model.encode`) and
  `util.pytorch_cos_sim` are a black box.  `pytorch_cos_sim(u, v)` equals the
  dot product of the normalized vectors `u / max(‖u‖, ε)` and
  `v / max(‖v‖, ε)`, each of which has squared norm at most 1.  We therefore
  model the provider (`Env.encode`) as directly returning the normalized
  embedding — an arbitrary rational vector `u` with `dotq u u ≤ 1` — or
  `none` when encoding raises an exception, and `cos_sim` as the dot product.
* Python floats are idealized as exact rationals; `round(x, 2)` is exact
  round-half-to-even at two decimals (`round2`).
* `st.stop()` during extraction is modelled by `Except.error`; `st.error`
  inside `calculate_ats_score` by a Boolean flag in its result.
-/

namespace ATS

/-- `s.strip()` in Python: remove leading and trailing whitespace. -/
def pyStrip (s : List Char) : List Char :=
  ((s.dropWhile Char.isWhitespace).reverse.dropWhile Char.isWhitespace).reverse

/-- `MAX_CHARS = 2000` (line 77 of the source). -/
def MAX_CHARS : Nat := 2000

/-- `s[:MAX_CHARS]` (lines 100–101 of the source): silent prefix cut. -/
def truncate (s : List Char) : List Char := s.take MAX_CHARS

/-- Dot product of two rational vectors (coordinatewise product, summed). -/
def dotq (u v : List ℚ) : ℚ := (List.zipWith (· * ·) u v).sum

/-- The external embedding provider, composed with the normalization step
performed inside `util.pytorch_cos_sim`.  `encode t = none` models
`model.encode` raising an exception on `t`; `encode t = some u` models a
successful encoding whose normalized vector is `u`, which always satisfies
`dotq u u ≤ 1` (it is `u₀ / max(‖u₀‖, ε)` for some raw embedding `u₀`). -/
structure Env where
  encode : List Char → Option (List ℚ)
  encode_norm : ∀ t u, encode t = some u → dotq u u ≤ 1

/-- `util.pytorch_cos_sim` on raw embeddings equals the dot product of the
corresponding normalized vectors, which is how `Env.encode` hands them over. -/
def cos_sim (u v : List ℚ) : ℚ := dotq u v

/-- Round a rational to the nearest integer, ties to even — the semantics of
Python's built-in `round` on exact values. -/
def roundHalfEven (q : ℚ) : ℤ :=
  if q - ⌊q⌋ < 1/2 then ⌊q⌋
  else if 1/2 < q - ⌊q⌋ then ⌊q⌋ + 1
  else if ⌊q⌋ % 2 = 0 then ⌊q⌋ else ⌊q⌋ + 1

/-- Python's `round(x, 2)`: round to two decimal places, ties to even. -/
def round2 (q : ℚ) : ℚ := (roundHalfEven (q * 100) : ℚ) / 100

/-- `calculate_ats_score` (lines 53–61).  Encodes the resume, then the job
description; on success returns `round(similarity * 100, 2)` with no error
shown, and if either encoding raises it shows an error (`st.error`, the
Boolean component) and returns `0.0`. -/
def calculate_ats_score (env : Env) (resume_text job_desc : List Char) :
    ℚ × Bool :=
  match env.encode resume_text with
  | none => (0, true)
  | some ru =>
    match env.encode job_desc with
    | none => (0, true)
    | some ju => (round2 (cos_sim ru ju * 100), false)

/-- The two ways text extraction halts the current request (`st.stop`):
the library failed to parse the bytes, or the parsed text is blank. -/
inductive ExtractStop
  | parseFailed
  | emptyContent
deriving DecidableEq

/-- `extract_text_from_pdf` (lines 23–35).  The `fitz` library is external:
its outcome is modelled as `none` (the `fitz.open`/`get_text` calls raised)
or `some pages`, the per-page plain texts in page order.  The function
concatenates the pages' text and stops with an error if the result contains
no non-whitespace character. -/
def extract_text_from_pdf (parsed : Option (List (List Char))) :
    Except ExtractStop (List Char) :=
  match parsed with
  | none => .error .parseFailed
  | some pages =>
    let text := pages.foldl (fun acc p => acc ++ p) []
    if pyStrip text = [] then .error .emptyContent else .ok text

/-- `extract_text_from_docx` (lines 38–50).  The `python-docx` library is
external: `none` models `docx.Document` raising, `some paras` the paragraph
texts in order.  Each paragraph's text is appended followed by `"\n"`; the
function stops with an error if the result contains no non-whitespace
character. -/
def extract_text_from_docx (parsed : Option (List (List Char))) :
    Except ExtractStop (List Char) :=
  match parsed with
  | none => .error .parseFailed
  | some paras =>
    let text := paras.foldl (fun acc p => acc ++ p ++ ['\n']) []
    if pyStrip text = [] then .error .emptyContent else .ok text

/-- The feedback tier shown after scoring (lines 111–116). -/
inductive Tier
  | Strong
  | Average
  | Weak
deriving DecidableEq

/-- The feedback branches after `calculate_ats_score`:
`score >= 75` → success message, `elif score >= 50` → warning, else error. -/
def feedback (score : ℚ) : Tier :=
  if score ≥ 75 then .Strong else if score ≥ 50 then .Average else .Weak

/-- How the resume text is obtained (sidebar radio, lines 70 and 79–94):
an uploaded PDF, an uploaded DOCX (each carrying the external parser's
outcome), pasted text, or upload mode with no file chosen yet. -/
inductive ResumeInput
  | uploadPdf (parsed : Option (List (List Char)))
  | uploadDocx (parsed : Option (List (List Char)))
  | pasted (text : List Char)
  | uploadNone
deriving DecidableEq

/-- The observable outcome of one page run. -/
inductive AppResult
  | stopped (e : ExtractStop)
  | idle
  | prompted
  | scored (score : ℚ) (tier : Tier) (scoringErrorShown : Bool)
deriving DecidableEq

/-- The resume text before truncation, as produced by lines 79–94: upload
mode routes through the matching extractor (whose `st.stop` halts the page),
paste mode takes the text area content, and no upload leaves `""`. -/
def getResumeText : ResumeInput → Except ExtractStop (List Char)
  | .uploadPdf parsed => extract_text_from_pdf parsed
  | .uploadDocx parsed => extract_text_from_docx parsed
  | .pasted t => .ok t
  | .uploadNone => .ok []

/-- One run of the page (lines 79–120): obtain the resume text (possibly
stopping inside extraction), truncate both inputs to `MAX_CHARS`, and on a
button press either run the scoring pipeline and display score plus feedback
tier, or prompt for the missing input.  The Boolean component instruments
whether `calculate_ats_score` was invoked (its only call site, line 107). -/
def runApp (env : Env) (ri : ResumeInput) (jobInput : List Char)
    (pressed : Bool) : AppResult × Bool :=
  match getResumeText ri with
  | .error e => (.stopped e, false)
  | .ok resume0 =>
    let resume_text := truncate resume0
    let job_desc := truncate jobInput
    if pressed then
      if pyStrip resume_text ≠ [] ∧ pyStrip job_desc ≠ [] then
        let result := calculate_ats_score env resume_text job_desc
        (.scored result.1 (feedback result.1) result.2, true)
      else
        (.prompted, false)
    else
      (.idle, false)

/-- What §4.1 of the specification says the DOCX extraction returns:
the paragraphs' texts in order, *separated* by newlines.  Stated from the
spec's words, for comparison with `extract_text_from_docx`. -/
def docxTextSpec (paras : List (List Char)) : List Char :=
  List.intercalate ['\n'] paras

/-- A concrete well-behaved environment: every text encodes to the unit
vector `[1]`. -/
def envUnit : Env where
  encode _ := some [1]
  encode_norm := by
    intro t u h
    simp only [Option.some.injEq] at h
    subst h
    simp [dotq]

/-- A concrete environment producing antipodal unit embeddings: the text
`"a"` encodes to `[1]`, every other text to `[-1]`, so the cosine
similarity of `"a"` with any other text is `-1`. -/
def envNeg : Env where
  encode t := if t = ['a'] then some [1] else some [-1]
  encode_norm := by
    intro t u h
    by_cases ht : t = ['a'] <;> simp only [ht, if_true, if_false,
      reduceIte, Option.some.injEq] at h <;> subst h <;> simp [dotq]

/-- A concrete environment whose encoder always raises. -/
def envFail : Env where
  encode _ := none
  encode_norm := by intro t u h; simp at h

/-! ## Helper lemmas -/

theorem dotq_self_nonneg (u : List ℚ) : 0 ≤ dotq u u := by
  induction u with
  | nil => simp [dotq]
  | cons a u ih =>
    have h : dotq (a :: u) (a :: u) = a * a + dotq u u := by simp [dotq]
    rw [h]
    nlinarith [ih]

theorem two_mul_le_add_of_sq_le_mul (x y z : ℚ) (hx : 0 ≤ x) (hy : 0 ≤ y)
    (hz : z ^ 2 ≤ x * y) : 2 * z ≤ x + y := by
  by_contra hcon
  push_neg at hcon
  have hz0 : 0 < z := by nlinarith
  have h1 : (x + y) ^ 2 < 4 * z ^ 2 := by nlinarith
  have h2 : 4 * (x * y) ≤ (x + y) ^ 2 := by nlinarith [sq_nonneg (x - y)]
  nlinarith

/-- Cauchy–Schwarz for the list dot product. -/
theorem dotq_cauchy_schwarz (u v : List ℚ) :
    dotq u v ^ 2 ≤ dotq u u * dotq v v := by
  induction u generalizing v with
  | nil => simp [dotq]
  | cons a u ih =>
    cases v with
    | nil => simp [dotq]
    | cons b v =>
      have h1 : dotq (a :: u) (b :: v) = a * b + dotq u v := by simp [dotq]
      have h2 : dotq (a :: u) (a :: u) = a * a + dotq u u := by simp [dotq]
      have h3 : dotq (b :: v) (b :: v) = b * b + dotq v v := by simp [dotq]
      rw [h1, h2, h3]
      have hA := dotq_self_nonneg u
      have hB := dotq_self_nonneg v
      have hd := ih v
      have key : 2 * (a * b * dotq u v) ≤ a ^ 2 * dotq v v + dotq u u * b ^ 2 := by
        apply two_mul_le_add_of_sq_le_mul
        · positivity
        · positivity
        · have h4 := mul_le_mul_of_nonneg_left hd (sq_nonneg (a * b))
          nlinarith [h4]
      nlinarith [key, hd]

/-- Dot products of vectors of squared norm at most 1 lie in `[-1, 1]`. -/
theorem abs_dotq_le_one (u v : List ℚ) (hu : dotq u u ≤ 1) (hv : dotq v v ≤ 1) :
    -1 ≤ dotq u v ∧ dotq u v ≤ 1 := by
  have hs : dotq u v ^ 2 ≤ 1 := by
    have h1 := dotq_cauchy_schwarz u v
    have h2 := dotq_self_nonneg u
    have h3 := dotq_self_nonneg v
    nlinarith
  have habs : |dotq u v| ≤ 1 := (sq_le_one_iff_abs_le_one (dotq u v)).mp hs
  exact abs_le.mp habs

theorem roundHalfEven_intCast (n : ℤ) : roundHalfEven (n : ℚ) = n := by
  simp [roundHalfEven]

theorem round2_intCast (n : ℤ) : round2 (n : ℚ) = n := by
  have h : ((n : ℚ)) * 100 = ((n * 100 : ℤ) : ℚ) := by push_cast; ring
  rw [round2, h, roundHalfEven_intCast]
  push_cast
  ring

theorem le_roundHalfEven (n : ℤ) (q : ℚ) (h : (n : ℚ) ≤ q) :
    n ≤ roundHalfEven q := by
  have hf : n ≤ ⌊q⌋ := Int.le_floor.mpr h
  unfold roundHalfEven
  split_ifs <;> omega

theorem roundHalfEven_le (n : ℤ) (q : ℚ) (h : q ≤ (n : ℚ)) :
    roundHalfEven q ≤ n := by
  have hf : ⌊q⌋ ≤ n := by
    have h1 := (Int.floor_le q).trans h
    exact_mod_cast Int.floor_le_floor h |>.trans_eq (Int.floor_intCast n)
  have hlt : ¬(q - ⌊q⌋ < 1/2) → ⌊q⌋ < n := by
    intro hge
    push_neg at hge
    have h2 : (⌊q⌋ : ℚ) < (n : ℚ) := by linarith
    exact_mod_cast h2
  unfold roundHalfEven
  split_ifs with h1 h2 h3
  · exact hf
  · have := hlt h1; omega
  · exact hf
  · have := hlt h1; omega

/-- On a cosine value in `[-1, 1]`, the rescaled, rounded score stays in
`[-100, 100]`. -/
theorem round2_bounds (c : ℚ) (hl : -1 ≤ c) (hr : c ≤ 1) :
    -100 ≤ round2 (c * 100) ∧ round2 (c * 100) ≤ 100 := by
  have hml : ((-10000 : ℤ) : ℚ) ≤ c * 100 * 100 := by push_cast; linarith
  have hmr : c * 100 * 100 ≤ ((10000 : ℤ) : ℚ) := by push_cast; linarith
  have h1 := le_roundHalfEven (-10000) (c * 100 * 100) hml
  have h2 := roundHalfEven_le 10000 (c * 100 * 100) hmr
  unfold round2
  constructor
  · rw [le_div_iff₀ (by norm_num : (0:ℚ) < 100)]
    have : ((-10000 : ℤ) : ℚ) ≤ (roundHalfEven (c * 100 * 100) : ℚ) := by
      exact_mod_cast h1
    push_cast at this ⊢
    linarith
  · rw [div_le_iff₀ (by norm_num : (0:ℚ) < 100)]
    have : ((roundHalfEven (c * 100 * 100)) : ℚ) ≤ ((10000 : ℤ) : ℚ) := by
      exact_mod_cast h2
    push_cast at this ⊢
    linarith

/-- `pyStrip` yields the empty string exactly when every character is
whitespace. -/
theorem pyStrip_eq_nil_iff (s : List Char) :
    pyStrip s = [] ↔ ∀ c ∈ s, c.isWhitespace := by
  unfold pyStrip
  rw [List.reverse_eq_nil_iff, List.dropWhile_eq_nil_iff]
  constructor
  · intro h c hc
    have hc2 : c ∈ List.takeWhile Char.isWhitespace s
        ++ List.dropWhile Char.isWhitespace s := by
      rw [List.takeWhile_append_dropWhile]
      exact hc
    rcases List.mem_append.mp hc2 with h1 | h1
    · exact List.mem_takeWhile_imp h1
    · exact h c (List.mem_reverse.mpr h1)
  · intro h c hc
    have hc2 : c ∈ List.dropWhile Char.isWhitespace s := List.mem_reverse.mp hc
    have hsub : List.Sublist (List.dropWhile Char.isWhitespace s) s :=
      List.dropWhile_sublist _
    exact h c (hsub.subset hc2)

theorem foldl_append_eq_flatten (l : List (List Char)) (acc : List Char) :
    l.foldl (fun acc p => acc ++ p) acc = acc ++ l.flatten := by
  induction l generalizing acc with
  | nil => simp
  | cons p l ih =>
    rw [List.foldl_cons, ih]
    simp

theorem foldl_append_newline_eq_flatten (l : List (List Char)) (acc : List Char) :
    l.foldl (fun acc p => acc ++ p ++ ['\n']) acc
      = acc ++ (l.map (fun p => p ++ ['\n'])).flatten := by
  induction l generalizing acc with
  | nil => simp
  | cons p l ih =>
    rw [List.foldl_cons, ih]
    simp

/-- The PDF extractor on a parsed document, stated over the flattened page
texts. -/
theorem extract_pdf_eq (pages : List (List Char)) :
    extract_text_from_pdf (some pages)
      = if pyStrip pages.flatten = [] then .error .emptyContent
        else .ok pages.flatten := by
  simp only [extract_text_from_pdf]
  rw [foldl_append_eq_flatten, List.nil_append]

/-- The DOCX extractor on a parsed document, stated over the flattened,
newline-terminated paragraph texts. -/
theorem extract_docx_eq (paras : List (List Char)) :
    extract_text_from_docx (some paras)
      = if pyStrip (paras.map (fun p => p ++ ['\n'])).flatten = []
        then .error .emptyContent
        else .ok (paras.map (fun p => p ++ ['\n'])).flatten := by
  simp only [extract_text_from_docx]
  rw [foldl_append_newline_eq_flatten, List.nil_append]

/-- On a blank (post-truncation) resume or job description, a button press
reaches the `else` branch of line 105: the prompt is shown and the scoring
pipeline is not invoked.  Shared between the validation claims. -/
theorem runApp_prompted_of_blank (env : Env) (ri : ResumeInput)
    (r0 j : List Char) (hok : getResumeText ri = .ok r0)
    (hblank : pyStrip (truncate r0) = [] ∨ pyStrip (truncate j) = []) :
    runApp env ri j true = (.prompted, false) := by
  have hcond : ¬(pyStrip (truncate r0) ≠ [] ∧ pyStrip (truncate j) ≠ []) := by
    rcases hblank with h | h <;> simp [h]
  simp [runApp, hok, hcond]

/-! ## Claims -/

/-- Claim C1, counterexample: with a legitimate embedding environment in
which the two texts receive antipodal unit embeddings, the cosine
similarity is `-1` and the score is `-100.00`, outside `[0, 100]`, even
though both input texts are non-empty. -/
theorem C1_counterexample :
    pyStrip ['a'] ≠ [] ∧ pyStrip ['b'] ≠ [] ∧
    (calculate_ats_score envNeg ['a'] ['b']).1 = -100 ∧
    ¬(0 ≤ (calculate_ats_score envNeg ['a'] ['b']).1) := by
  have henc : calculate_ats_score envNeg ['a'] ['b']
      = (round2 (cos_sim [1] [-1] * 100), false) := rfl
  have harg : cos_sim [1] [-1] * 100 = ((-100 : ℤ) : ℚ) := by
    simp [cos_sim, dotq]
  have hval : (calculate_ats_score envNeg ['a'] ['b']).1 = -100 := by
    rw [henc]
    simp only [harg, round2_intCast]
    norm_num
  exact ⟨by decide, by decide, hval, by rw [hval]; norm_num⟩

/-- Claim C1 (amended): for every embedding environment and every pair of
input texts, the score returned by `calculate_ats_score` lies in the closed
interval `[-100, 100]` — the cosine similarity lies in `[-1, 1]`, and the
failure default `0.0` also lies in this interval. -/
theorem C1_score_range (env : Env) (r j : List Char) :
    -100 ≤ (calculate_ats_score env r j).1 ∧
      (calculate_ats_score env r j).1 ≤ 100 := by
  unfold calculate_ats_score
  cases hr : env.encode r with
  | none => norm_num
  | some ru =>
    cases hj : env.encode j with
    | none => norm_num
    | some ju =>
      have h1 := env.encode_norm r ru hr
      have h2 := env.encode_norm j ju hj
      have hb := abs_dotq_le_one ru ju h1 h2
      simpa [cos_sim] using round2_bounds (dotq ru ju) hb.1 hb.2

/-- Claim C2: the feedback classifier is a pure function of the score with
exactly these thresholds: `s ≥ 75` yields the Strong tier, `50 ≤ s < 75`
the Average tier, and `s < 50` the Weak tier. -/
theorem C2_feedback_thresholds (s : ℚ) :
    (feedback s = Tier.Strong ↔ 75 ≤ s) ∧
    (feedback s = Tier.Average ↔ 50 ≤ s ∧ s < 75) ∧
    (feedback s = Tier.Weak ↔ s < 50) := by
  unfold feedback
  split_ifs with h1 h2
  · refine ⟨by simpa using h1, ?_, ?_⟩
    · simp only [reduceCtorEq, false_iff]
      intro hx
      linarith [hx.2]
    · simp only [reduceCtorEq, false_iff, not_lt]
      linarith
  · refine ⟨?_, ?_, ?_⟩
    · simp only [reduceCtorEq, false_iff, not_le]
      linarith [lt_of_not_le h1]
    · simp only [true_iff]
      exact ⟨h2, lt_of_not_le h1⟩
    · simp only [reduceCtorEq, false_iff, not_lt]
      linarith
  · refine ⟨?_, ?_, ?_⟩
    · simp only [reduceCtorEq, false_iff, not_le]
      linarith [lt_of_not_le h1]
    · simp only [reduceCtorEq, false_iff]
      intro hx
      exact h2 hx.1
    · simp only [true_iff]
      exact lt_of_not_le h2

/-- Claim C4: when the resume and the job description are the same
non-empty text and the provider encodes it (to a proper unit embedding,
as a real sentence-embedding model always does on a successful encode),
the cosine similarity of the embedding with itself is `1` and the score is
exactly `100.00`, with no error shown. -/
theorem C4_identical_inputs (env : Env) (t : List Char) (u : List ℚ)
    (hne : pyStrip t ≠ []) (henc : env.encode t = some u)
    (hunit : dotq u u = 1) :
    calculate_ats_score env t t = (100, false) := by
  unfold calculate_ats_score
  simp only [henc]
  have h1 : cos_sim u u * 100 = ((100 : ℤ) : ℚ) := by
    simp [cos_sim, hunit]
  rw [h1, round2_intCast]
  norm_num

/-- Claim C4, witness: the unit environment at the one-character text
`"a"` scores `100.00` against itself. -/
theorem C4_witness :
    pyStrip ['a'] ≠ [] ∧ envUnit.encode ['a'] = some [1] ∧
    dotq [1] [1] = 1 ∧
    calculate_ats_score envUnit ['a'] ['a'] = (100, false) :=
  ⟨by decide, rfl, by simp [dotq],
    C4_identical_inputs envUnit ['a'] [1] (by decide) rfl (by simp [dotq])⟩

/-- Claim C3: the whole page outcome depends only on the first `MAX_CHARS`
characters of each input: extending either pasted input beyond its first
2000 characters changes nothing — truncation is a silent prefix cut, not an
error. -/
theorem C3_truncation_determinism (env : Env) (r j e₁ e₂ : List Char)
    (pressed : Bool) (hr : MAX_CHARS ≤ r.length) (hj : MAX_CHARS ≤ j.length) :
    runApp env (.pasted (r ++ e₁)) (j ++ e₂) pressed
      = runApp env (.pasted r) j pressed := by
  have h1 : truncate (r ++ e₁) = truncate r := by
    unfold truncate
    exact List.take_append_of_le_length hr
  have h2 : truncate (j ++ e₂) = truncate j := by
    unfold truncate
    exact List.take_append_of_le_length hj
  simp only [runApp, getResumeText, h1, h2]

/-- Claim C3, witness: appending a character to a 2000-character resume or
job description leaves the page outcome unchanged. -/
theorem C3_witness :
    MAX_CHARS ≤ (List.replicate 2000 'a').length ∧
    runApp envUnit (.pasted (List.replicate 2000 'a' ++ ['b']))
        (List.replicate 2000 'a' ++ ['c']) true
      = runApp envUnit (.pasted (List.replicate 2000 'a'))
        (List.replicate 2000 'a') true :=
  ⟨by rw [List.length_replicate]; exact Nat.le_refl MAX_CHARS,
    C3_truncation_determinism envUnit (List.replicate 2000 'a')
      (List.replicate 2000 'a') ['b'] ['c'] true
      (by rw [List.length_replicate]; exact Nat.le_refl MAX_CHARS)
      (by rw [List.length_replicate]; exact Nat.le_refl MAX_CHARS)⟩

/-- Claim C5: if the provider fails to encode either (truncated, non-blank)
input, the pipeline does not raise: the error is shown, the returned score
is the default `0.0`, and the request still completes with the score
classified (as Weak) and displayed. -/
theorem C5_provider_failure (env : Env) (r j : List Char)
    (hr : pyStrip (truncate r) ≠ []) (hj : pyStrip (truncate j) ≠ [])
    (hfail : env.encode (truncate r) = none ∨ env.encode (truncate j) = none) :
    runApp env (.pasted r) j true = (.scored 0 .Weak true, true) := by
  have hcalc : calculate_ats_score env (truncate r) (truncate j) = (0, true) := by
    unfold calculate_ats_score
    rcases hfail with h | h
    · simp only [h]
    · cases henc : env.encode (truncate r) with
      | none => rfl
      | some ru => simp only [henc, h]
  have hfb : feedback 0 = Tier.Weak := by norm_num [feedback]
  simp [runApp, getResumeText, hr, hj, hcalc, hfb]

/-- Claim C5, witness: the always-failing environment on the inputs `"a"`
and `"b"` yields score `0.0`, tier Weak, with the error shown. -/
theorem C5_witness :
    pyStrip (truncate ['a']) ≠ [] ∧ pyStrip (truncate ['b']) ≠ [] ∧
    envFail.encode (truncate ['a']) = none ∧
    runApp envFail (.pasted ['a']) ['b'] true = (.scored 0 .Weak true, true) :=
  ⟨by decide, by decide, rfl,
    C5_provider_failure envFail ['a'] ['b'] (by decide) (by decide) (Or.inl rfl)⟩

/-- Claim C6, counterexample: a one-paragraph DOCX with text `"a"`
extracts to `"a\n"` — each paragraph is *terminated* by a newline — which
differs from the spec's newline-*separated* concatenation `"a"`. -/
theorem C6_counterexample :
    extract_text_from_docx (some [['a']]) = .ok ['a', '\n'] ∧
    (['a', '\n'] : List Char) ≠ docxTextSpec [['a']] :=
  ⟨rfl, by decide⟩

/-- Claim C6 (amended): for every successfully parsed document containing
visible text, extraction returns the document's parts in order: for a PDF
the concatenation of the pages' text, and for a DOCX the concatenation of
the paragraphs' texts each *followed* by a newline (newline-terminated,
with a trailing newline, rather than newline-separated). -/
theorem C6_extraction_concat (pages paras : List (List Char)) :
    ((∃ c ∈ pages.flatten, ¬c.isWhitespace) →
      extract_text_from_pdf (some pages) = .ok pages.flatten) ∧
    ((∃ c ∈ paras.flatten, ¬c.isWhitespace) →
      extract_text_from_docx (some paras)
        = .ok ((paras.map (fun p => p ++ ['\n'])).flatten)) := by
  constructor
  · intro hvis
    have hne : pyStrip pages.flatten ≠ [] := by
      intro hnil
      rcases hvis with ⟨c, hc, hnw⟩
      exact hnw ((pyStrip_eq_nil_iff _).mp hnil c hc)
    rw [extract_pdf_eq, if_neg hne]
  · intro hvis
    have hne : pyStrip (paras.map (fun p => p ++ ['\n'])).flatten ≠ [] := by
      intro hnil
      rcases hvis with ⟨c, hc, hnw⟩
      rcases List.mem_flatten.mp hc with ⟨q, hq, hcq⟩
      refine hnw ((pyStrip_eq_nil_iff _).mp hnil c ?_)
      exact List.mem_flatten.mpr
        ⟨q ++ ['\n'], List.mem_map.mpr ⟨q, hq, rfl⟩, List.mem_append_left _ hcq⟩
    rw [extract_docx_eq, if_neg hne]

/-- Claim C6, witness: a one-page PDF with text `"a"` extracts to `"a"`,
and a one-paragraph DOCX with text `"b"` extracts to `"b\n"`. -/
theorem C6_witness :
    (∃ c ∈ ([['a']] : List (List Char)).flatten, ¬c.isWhitespace) ∧
    extract_text_from_pdf (some [['a']])
      = .ok ([['a']] : List (List Char)).flatten ∧
    extract_text_from_docx (some [['b']])
      = .ok ((([['b']] : List (List Char)).map (fun p => p ++ ['\n'])).flatten) :=
  ⟨by decide, (C6_extraction_concat [['a']] [['b']]).1 (by decide),
    (C6_extraction_concat [['a']] [['b']]).2 (by decide)⟩

/-- Claim C7: for any uploaded document whose parsed text contains no
non-whitespace character, extraction stops the request with the
empty-content error, and the scoring pipeline is never invoked (the
instrumentation bit is `false`), whatever the environment, the other input
and the button state. -/
theorem C7_empty_content (env : Env) (pages paras : List (List Char))
    (j : List Char) (pressed : Bool) :
    ((∀ c ∈ pages.flatten, c.isWhitespace) →
      runApp env (.uploadPdf (some pages)) j pressed
        = (.stopped .emptyContent, false)) ∧
    ((∀ c ∈ paras.flatten, c.isWhitespace) →
      runApp env (.uploadDocx (some paras)) j pressed
        = (.stopped .emptyContent, false)) := by
  constructor
  · intro hws
    have htext : pyStrip pages.flatten = [] := (pyStrip_eq_nil_iff _).mpr hws
    simp [runApp, getResumeText, extract_pdf_eq, htext]
  · intro hws
    have hws2 : ∀ c ∈ (paras.map (fun p => p ++ ['\n'])).flatten,
        c.isWhitespace := by
      intro c hc
      rcases List.mem_flatten.mp hc with ⟨q, hq, hcq⟩
      rcases List.mem_map.mp hq with ⟨p, hp, rfl⟩
      rcases List.mem_append.mp hcq with h1 | h1
      · exact hws c (List.mem_flatten.mpr ⟨p, hp, h1⟩)
      · have : c = '\n' := by simpa using h1
        subst this
        decide
    have htext : pyStrip (paras.map (fun p => p ++ ['\n'])).flatten = [] :=
      (pyStrip_eq_nil_iff _).mpr hws2
    simp [runApp, getResumeText, extract_docx_eq, htext]

/-- Claim C7, witness: a one-page PDF containing only a space and a DOCX
with one empty paragraph both stop with the empty-content error without
invoking the pipeline. -/
theorem C7_witness :
    (∀ c ∈ ([[' ']] : List (List Char)).flatten, c.isWhitespace) ∧
    runApp envUnit (.uploadPdf (some [[' ']])) ['b'] true
      = (.stopped .emptyContent, false) ∧
    runApp envUnit (.uploadDocx (some [[]])) ['b'] true
      = (.stopped .emptyContent, false) :=
  ⟨by decide, (C7_empty_content envUnit [[' ']] [[]] ['b'] true).1 (by decide),
    (C7_empty_content envUnit [[' ']] [[]] ['b'] true).2 (by simp)⟩

/-- Claim C8: if either input text is blank after truncation and trimming
when the score check is triggered, the scoring pipeline is not invoked (the
instrumentation bit is `false`) and the user is prompted for both inputs. -/
theorem C8_missing_input (env : Env) (ri : ResumeInput) (r0 j : List Char)
    (hok : getResumeText ri = .ok r0)
    (hblank : pyStrip (truncate r0) = [] ∨ pyStrip (truncate j) = []) :
    runApp env ri j true = (.prompted, false) :=
  runApp_prompted_of_blank env ri r0 j hok hblank

/-- Claim C8, witness: an empty pasted resume with a non-empty job
description prompts for input without scoring. -/
theorem C8_witness :
    getResumeText (.pasted []) = .ok ([] : List Char) ∧
    pyStrip (truncate []) = [] ∧
    runApp envUnit (.pasted []) ['b'] true = (.prompted, false) :=
  ⟨rfl, rfl, C8_missing_input envUnit (.pasted []) [] ['b'] rfl (Or.inl rfl)⟩

/-- Claim C9: the emptiness validation is applied to the already-truncated
text: an input whose first 2000 characters are all whitespace is rejected
as missing input — the pipeline is not invoked — even when the full input
is non-empty after trimming. -/
theorem C9_validation_after_truncation (env : Env) (r j : List Char)
    (hws : ∀ c ∈ r.take MAX_CHARS, c.isWhitespace)
    (hfull : pyStrip r ≠ []) :
    runApp env (.pasted r) j true = (.prompted, false) := by
  have hblank : pyStrip (truncate r) = [] :=
    (pyStrip_eq_nil_iff _).mpr (by simpa [truncate] using hws)
  exact runApp_prompted_of_blank env (.pasted r) r j rfl (Or.inl hblank)

/-- Claim C9, witness: 2000 spaces followed by `'a'` is non-empty after
trimming, yet the request is rejected as missing input. -/
theorem C9_witness :
    (∀ c ∈ (List.replicate 2000 ' ' ++ ['a']).take MAX_CHARS,
      c.isWhitespace) ∧
    pyStrip (List.replicate 2000 ' ' ++ ['a']) ≠ [] ∧
    runApp envUnit (.pasted (List.replicate 2000 ' ' ++ ['a'])) ['b'] true
      = (.prompted, false) := by
  have hws : ∀ c ∈ (List.replicate 2000 ' ' ++ ['a']).take MAX_CHARS,
      c.isWhitespace := by
    intro c hc
    have hlen : MAX_CHARS = (List.replicate 2000 ' ').length := by
      rw [List.length_replicate]
      exact rfl
    rw [hlen, List.take_append_of_le_length (le_refl _),
      List.take_length] at hc
    have hc' : c = ' ' := List.eq_of_mem_replicate hc
    subst hc'
    decide
  have hfull : pyStrip (List.replicate 2000 ' ' ++ ['a']) ≠ [] := by
    intro hnil
    have ha := (pyStrip_eq_nil_iff _).mp hnil 'a'
      (List.mem_append.mpr (Or.inr (List.mem_singleton.mpr rfl)))
    exact absurd ha (by decide)
  exact ⟨hws, hfull,
    C9_validation_after_truncation envUnit (List.replicate 2000 ' ' ++ ['a'])
      ['b'] hws hfull⟩

/-- Claim C10: on every path on which an extraction function returns
normally, the returned string contains at least one non-whitespace
character (its stripped form is non-empty). -/
theorem C10_extract_nonblank (p₁ p₂ : Option (List (List Char)))
    (t₁ t₂ : List Char) :
    (extract_text_from_pdf p₁ = .ok t₁ → pyStrip t₁ ≠ []) ∧
    (extract_text_from_docx p₂ = .ok t₂ → pyStrip t₂ ≠ []) := by
  constructor
  · intro h
    cases p₁ with
    | none => simp [extract_text_from_pdf] at h
    | some pages =>
      rw [extract_pdf_eq] at h
      by_cases hc : pyStrip pages.flatten = []
      · rw [if_pos hc] at h
        exact absurd h (by simp)
      · rw [if_neg hc] at h
        have ht : pages.flatten = t₁ := by simpa using h
        rw [← ht]
        exact hc
  · intro h
    cases p₂ with
    | none => simp [extract_text_from_docx] at h
    | some paras =>
      rw [extract_docx_eq] at h
      by_cases hc : pyStrip (paras.map (fun p => p ++ ['\n'])).flatten = []
      · rw [if_pos hc] at h
        exact absurd h (by simp)
      · rw [if_neg hc] at h
        have ht : (paras.map (fun p => p ++ ['\n'])).flatten = t₂ := by
          simpa using h
        rw [← ht]
        exact hc

/-- Claim C10, witness: the extractions of a one-page PDF `"a"` and a
one-paragraph DOCX `"b"` both return strings with visible content. -/
theorem C10_witness :
    pyStrip ['a'] ≠ [] ∧ pyStrip ['b', '\n'] ≠ [] :=
  ⟨(C10_extract_nonblank (some [['a']]) (some [['b']]) ['a'] ['b', '\n']).1 rfl,
    (C10_extract_nonblank (some [['a']]) (some [['b']]) ['a'] ['b', '\n']).2 rfl⟩

end ATS
